import Mathlib

/-!
# ConcurCrawler: a shallow embedding of the scan engine

This file embeds the scan engine of the repository (src/scanner.py and its
near-duplicate src/app.py) in Lean 4 and proves properties of the embedding.

The engine's URL handling goes through Python's `urllib.parse.urljoin` /
`urlsplit`; those stdlib functions are modelled below following CPython's
`urllib/parse.py` (RFC 3986 relative resolution as CPython implements it).
Two simplifications, harmless for every input considered here: the `params`
component (a `;` in the last path segment) is folded into the path, and the
removal of ASCII tab/newline bytes from URLs is omitted (no input contains
them).
-/

namespace ConcurCrawler

/-- Split a character list at the first occurrence of `c`: `some (before, after)`
with `c` itself dropped, or `none` when `c` does not occur.  Models Python's
`str.split(c, 1)` / `str.find`. -/
def breakAtChar (c : Char) : List Char → Option (List Char × List Char)
  | [] => none
  | x :: xs =>
    if x = c then some ([], xs)
    else
      match breakAtChar c xs with
      | none => none
      | some (a, b) => some (x :: a, b)

/-- CPython `scheme_chars`: letters, digits, `+`, `-`, `.`. -/
def isSchemeChar (c : Char) : Bool :=
  c.isAlpha || c.isDigit || c = '+' || c = '-' || c = '.'

/-- The scheme-splitting step of CPython `urlsplit`: when the text before the
first `:` is a nonempty run of scheme characters starting with a letter, it is
the scheme (lowercased) and the remainder follows; otherwise no scheme. -/
def splitScheme (url : String) : String × String :=
  match breakAtChar ':' url.toList with
  | none => ("", url)
  | some (pre, post) =>
    match pre with
    | [] => ("", url)
    | c0 :: _ =>
      if c0.isAlpha && pre.all isSchemeChar then
        (String.mk (pre.map Char.toLower), String.mk post)
      else ("", url)

/-- A netloc runs up to the first `/`, `?` or `#` (CPython `_splitnetloc`). -/
def netlocDelim (c : Char) : Bool :=
  c = '/' || c = '?' || c = '#'

/-- Python `str.startswith`, via structural list recursion. -/
def strStartsWith (s pre : String) : Bool :=
  pre.toList.isPrefixOf s.toList

/-- Python `str.split(c)` on a single-character separator, over characters:
`""` gives `[[]]`, and every occurrence of `c` separates. -/
def splitCharList (c : Char) : List Char → List (List Char)
  | [] => [[]]
  | x :: xs =>
    if x = c then [] :: splitCharList c xs
    else
      match splitCharList c xs with
      | [] => [[x]]
      | g :: gs => (x :: g) :: gs

/-- Python `s.split("/")`. -/
def splitSlash (s : String) : List String :=
  (splitCharList '/' s.toList).map String.mk

/-- Python `"/".join(parts)`. -/
def joinSlash : List String → String
  | [] => ""
  | [x] => x
  | x :: y :: xs => x ++ "/" ++ joinSlash (y :: xs)

/-- The five components CPython's `urlsplit` returns. -/
structure UrlParts where
  scheme : String
  netloc : String
  path : String
  query : String
  fragment : String
deriving Repr, DecidableEq

/-- CPython `urlsplit(url, scheme=default)`: scheme, then `//netloc` when
present, then the fragment after the first `#`, then the query after the
first `?`; what is left is the path. -/
def urlsplitWith (url : String) (defaultScheme : String) : UrlParts :=
  let (sch, rest) := splitScheme url
  let scheme := if sch = "" then defaultScheme else sch
  let restL := rest.toList
  let netloc := if restL.take 2 = ['/', '/'] then (restL.drop 2).takeWhile (fun c => !netlocDelim c) else []
  let restL := if restL.take 2 = ['/', '/'] then (restL.drop 2).dropWhile (fun c => !netlocDelim c) else restL
  let (restL, frag) :=
    match breakAtChar '#' restL with
    | none => (restL, [])
    | some (a, b) => (a, b)
  let (pathL, query) :=
    match breakAtChar '?' restL with
    | none => (restL, [])
    | some (a, b) => (a, b)
  ⟨scheme, String.mk netloc, String.mk pathL, String.mk query, String.mk frag⟩

/-- CPython `urlunsplit`. -/
def urlunsplit (u : UrlParts) : String :=
  let url := u.path
  let url :=
    if u.netloc ≠ "" ∨ url.toList.take 2 = ['/', '/'] then
      "//" ++ u.netloc ++ (if url ≠ "" ∧ strStartsWith url "/" = false then "/" ++ url else url)
    else url
  let url := if u.scheme ≠ "" then u.scheme ++ ":" ++ url else url
  let url := if u.query ≠ "" then url ++ "?" ++ u.query else url
  if u.fragment ≠ "" then url ++ "#" ++ u.fragment else url

/-- CPython `uses_relative`. -/
def usesRelative : List String :=
  ["", "ftp", "http", "gopher", "nntp", "imap", "wais", "file", "https", "shttp",
   "mms", "prospero", "rtsp", "rtspu", "sftp", "svn", "svn+ssh", "ws", "wss"]

/-- CPython `uses_netloc`. -/
def usesNetloc : List String :=
  ["", "ftp", "http", "gopher", "nntp", "telnet", "imap", "wais", "file", "mms",
   "https", "shttp", "snews", "prospero", "rtsp", "rtspu", "rsync", "svn",
   "svn+ssh", "sftp", "nfs", "git", "git+ssh", "ws", "wss", "itms-services"]

/-- CPython `urljoin`'s `segments[1:-1] = filter(None, segments[1:-1])`:
drop empty segments except the last (helper over the tail). -/
def dropEmptyKeepLast : List String → List String
  | [] => []
  | [x] => [x]
  | x :: y :: xs => if x = "" then dropEmptyKeepLast (y :: xs) else x :: dropEmptyKeepLast (y :: xs)

/-- Keep the first segment, filter empties from the middle, keep the last. -/
def keepEndsFilterEmpty : List String → List String
  | [] => []
  | x :: xs => x :: dropEmptyKeepLast xs

/-- CPython `urljoin`'s dot-segment resolution loop: `..` pops (ignoring
underflow), `.` is dropped, everything else is pushed. -/
def resolveSegments (segs : List String) : List String :=
  segs.foldl (fun acc s => if s = ".." then acc.dropLast else if s = "." then acc else acc ++ [s]) []

/-- CPython `urllib.parse.urljoin(base, url)` for fragment-allowing splits,
with the `params` component folded into the path. -/
def urljoin (base url : String) : String :=
  if base = "" then url
  else if url = "" then base
  else
    let b := urlsplitWith base ""
    let u := urlsplitWith url b.scheme
    if u.scheme ≠ b.scheme ∨ ¬ usesRelative.contains u.scheme then url
    else if usesNetloc.contains u.scheme ∧ u.netloc ≠ "" then
      urlunsplit u
    else
      let netloc := if usesNetloc.contains u.scheme then b.netloc else u.netloc
      if u.path = "" then
        let query := if u.query = "" then b.query else u.query
        urlunsplit ⟨u.scheme, netloc, b.path, query, u.fragment⟩
      else
        let baseParts := splitSlash b.path
        let baseParts := if baseParts.getLast? ≠ some "" then baseParts.dropLast else baseParts
        let segments :=
          if strStartsWith u.path "/" then splitSlash u.path
          else keepEndsFilterEmpty (baseParts ++ splitSlash u.path)
        let resolved := resolveSegments segments
        let resolved :=
          if segments.getLast? = some ".." ∨ segments.getLast? = some "." then resolved ++ [""]
          else resolved
        let p := joinSlash resolved
        let p := if p = "" then "/" else p
        urlunsplit ⟨u.scheme, netloc, p, u.query, u.fragment⟩

/-- Python `s.rstrip("/")`: drop every trailing `/`. -/
def rstripSlash (s : String) : String :=
  String.mk (((s.toList.reverse).dropWhile (fun c => c = '/')).reverse)

/-- Python `s.lstrip("/")`: drop every leading `/`. -/
def lstripSlash (s : String) : String :=
  String.mk (s.toList.dropWhile (fun c => c = '/'))

/-- The absolute URL the scan loop builds for a candidate path
(`urljoin(base_url.rstrip("/") + "/", p.lstrip("/"))`, scanner.py line 103 /
app.py line 106). -/
def probeUrl (baseUrl p : String) : String :=
  urljoin (rstripSlash baseUrl ++ "/") (lstripSlash p)

/-- The URL the robots gate hands to `rp.can_fetch("*", ...)`
(`urljoin(base_url, path)`, scanner.py line 88 / app.py line 91): the raw
base and the raw path, not the normalized/stripped forms of `probeUrl`. -/
def robotsEvaluatedUrl (baseUrl p : String) : String :=
  urljoin baseUrl p

/-- The robots.txt location the gate fetches:
`f"{parsed.scheme}://{parsed.netloc}/robots.txt"`. -/
def robotsUrlOf (baseUrl : String) : String :=
  let parsed := urlsplitWith baseUrl ""
  parsed.scheme ++ "://" ++ parsed.netloc ++ "/robots.txt"

/-- The `*`-agent decision function of a successfully fetched and parsed
robots.txt (`RobotFileParser.can_fetch("*", url)`). -/
structure RobotsRules where
  canFetch : String → Bool

/-- What the network does when the gate fetches and parses robots.txt:
either some exception is raised (network error, timeout, undecodable
content), or a parsed rule set comes back. -/
inductive RobotsFetchResult where
  | fetchError (msg : String)
  | fetched (rules : RobotsRules)

/-- `can_fetch_robots(base_url, path)` (scanner.py lines 80-91 / app.py lines
83-94): fetch robots.txt from `robotsUrlOf base_url`; if anything raises, the
`except` branch returns `True`; otherwise evaluate the joined URL against the
parsed rules.  `robotsFetch` is the network's response keyed by fetched URL. -/
def can_fetch_robots (robotsFetch : String → RobotsFetchResult) (baseUrl p : String) : Bool :=
  match robotsFetch (robotsUrlOf baseUrl) with
  | .fetchError _ => true
  | .fetched rules => rules.canFetch (robotsEvaluatedUrl baseUrl p)

/-- The gate against a stream of successive network responses: the function
body contains a single `rp.read()`, so exactly the head response is consumed
and the rest of the stream is left for later callers — there is no retry
loop in `can_fetch_robots`. -/
def can_fetch_robotsStream (responses : List RobotsFetchResult) (baseUrl p : String) :
    Bool × List RobotsFetchResult :=
  match responses with
  | [] => (true, [])
  | r :: rest => (can_fetch_robots (fun _ => r) baseUrl p, rest)

/-- `USER_AGENTS` (identical in both files). -/
def USER_AGENTS : List String :=
  ["Mozilla/5.0 (Windows NT 10.0; Win64; x64) AppleWebKit/537.36 (KHTML, like Gecko) Chrome/141.0.0.0 Safari/537.36",
   "Mozilla/5.0 (Macintosh; Intel Mac OS X 10_15_7) AppleWebKit/605.1.15 (KHTML, like Gecko) Version/16.5 Safari/605.1.15",
   "Mozilla/5.0 (X11; Linux x86_64) AppleWebKit/537.36 (KHTML, like Gecko) Chrome/141.0.0.0 Safari/537.36",
   "curl/8.0.1",
   "python-requests/2.31.0"]

/-- `DEFAULT_WORDLIST` (identical in both files). -/
def DEFAULT_WORDLIST : List String :=
  ["/", "index.html", "home", "login", "logout", "admin", "dashboard",
   "user", "api/", "api/v1/", "status", "health", "ping",
   "robots.txt", "sitemap.xml", "favicon.ico", ".well-known/security.txt",
   "wp-login.php", "wp-admin", "admin/login", "config", ".well-known/assetlinks.json"]

/-- `DELAY_BETWEEN_REQUESTS` of src/scanner.py (0.2 s), in milliseconds. -/
def scannerDelayMs : Nat := 200

/-- `DELAY_BETWEEN_REQUESTS` of src/app.py (0.18 s), in milliseconds. -/
def appDelayMs : Nat := 180

/-- What the network does to one `session.get` attempt: a response, or one of
the exception classes the `except` arms of `fetch` distinguish. -/
inductive AttemptResult where
  | ok (status : Nat) (reason finalUrl : String) (contentLength : Option Nat)
       (server : Option String) (headers : List (String × String))
  | timeout
  | responseError (msg : String)
  | clientError (msg : String)
  | otherError (msg : String)
deriving Repr, DecidableEq

/-- One dictionary appended to `results`: a success record, a robots skip, or
an error record (`{"url": ..., "error": ...}`). -/
inductive ProbeOutcome where
  | success (url : String) (status : Nat) (reason finalUrl : String)
            (contentLength : Option Nat) (server : Option String)
            (headers : List (String × String))
  | skipped (url reason : String)
  | failed (url error : String)
deriving Repr, DecidableEq

/-- Everything one (possibly retried) run of `fetch` does: the outcomes it
appends to `results`, the number of `session.get` attempts it makes, the
number of times it enters `async with sem` (semaphore acquisitions), and the
politeness / backoff sleeps it performs (durations in milliseconds). -/
structure FetchTrace where
  outcomes : List ProbeOutcome
  attempts : Nat
  acquisitions : Nat
  politenessSleepsMs : List Nat
  backoffSleepsMs : List Nat
deriving Repr, DecidableEq

/-- `fetch(session, url, headers, sem, results, retries)` (scanner.py lines
44-77 / app.py lines 49-80) with the network's behaviour for attempt `i`
given by `script i` and the politeness jitter (`random.random() * 0.1`, in
milliseconds) for attempt `i` given by `jitterMs i`.  Every invocation first
enters `async with sem` (one acquisition); a success appends one record and
sleeps `delayMs + jitter`; timeout / response / other errors append one error
record at once; a transport-level `ClientError` with retries left sleeps
0.5 s and re-invokes `fetch` with `retries - 1`. -/
def fetchGo (delayMs : Nat) (url : String) (script : Nat → AttemptResult)
    (jitterMs : Nat → Nat) (i retries : Nat) : FetchTrace :=
  match script i, retries with
    | .ok st rs fin cl sv hd, _ =>
      ⟨[.success url st rs fin cl sv hd], 1, 1, [delayMs + jitterMs i], []⟩
    | .timeout, _ => ⟨[.failed url "timeout"], 1, 1, [], []⟩
    | .responseError m, _ => ⟨[.failed url ("response_error: " ++ m)], 1, 1, [], []⟩
    | .clientError m, 0 => ⟨[.failed url ("client_error: " ++ m)], 1, 1, [], []⟩
    | .clientError _, r + 1 =>
      let rest := fetchGo delayMs url script jitterMs (i + 1) r
      ⟨rest.outcomes, rest.attempts + 1, rest.acquisitions + 1,
       rest.politenessSleepsMs, 500 :: rest.backoffSleepsMs⟩
    | .otherError m, _ => ⟨[.failed url ("other_error: " ++ m)], 1, 1, [], []⟩

/-- `fetch` as `scan_target` schedules it: the default `retries=1`. -/
def fetchTop (delayMs : Nat) (url : String) (script : Nat → AttemptResult)
    (jitterMs : Nat → Nat) : FetchTrace :=
  fetchGo delayMs url script jitterMs 0 1

/-- State threaded through `scan_target`'s scheduling loop: the shared
`results` list, the accumulated `tasks` (input index, url, chosen
User-Agent), and how much of the random stream has been consumed. -/
structure LoopState where
  results : List ProbeOutcome
  tasks : List (Nat × String × String)
  rngIdx : Nat

/-- The `for p in paths:` loop of `scan_target` (scanner.py lines 101-110 /
app.py lines 105-111): build the url, consult the robots gate (the network
response for the check of path `i` is `robotsNet i`); a denied path appends a
skip record and `continue`s; a permitted path draws a User-Agent from the
random stream and appends a task. -/
def scanLoop (baseUrl : String) (robotsNet : Nat → String → RobotsFetchResult)
    (rng : Nat → Nat) : List (Nat × String) → LoopState → LoopState
  | [], s => s
  | (i, p) :: rest, s =>
    let url := probeUrl baseUrl p
    if can_fetch_robots (robotsNet i) baseUrl p = false then
      scanLoop baseUrl robotsNet rng rest
        ⟨s.results ++ [.skipped url "disallowed_by_robots_txt"], s.tasks, s.rngIdx⟩
    else
      let ua := USER_AGENTS.getD (rng s.rngIdx % USER_AGENTS.length) ""
      scanLoop baseUrl robotsNet rng rest
        ⟨s.results, s.tasks ++ [(i, url, ua)], s.rngIdx + 1⟩

/-- The scheduling loop run from the empty initial state. -/
def scanLoopRun (baseUrl : String) (paths : List String)
    (robotsNet : Nat → String → RobotsFetchResult) (rng : Nat → Nat) : LoopState :=
  scanLoop baseUrl robotsNet rng paths.enum ⟨[], [], 0⟩

/-- The records the gathered workers append, one task after another in the
order the event loop completes them: task `(i, url, ua)` runs
`fetch(session, url, ...)` against network script `scripts i`. -/
def workerOutcomes (delayMs : Nat) (scripts : Nat → Nat → AttemptResult)
    (jitters : Nat → Nat → Nat) (tasks : List (Nat × String × String)) : List ProbeOutcome :=
  (tasks.map (fun t => (fetchTop delayMs t.2.1 (scripts t.1) (jitters t.1)).outcomes)).flatten

/-- `scan_target(base_url, paths, concurrency)` (scanner.py lines 94-113 /
app.py lines 97-114): the loop appends all robots skips to `results`
synchronously (no task has been awaited yet — the coroutines are only
gathered after the loop), then `asyncio.gather` runs the scheduled tasks and
each appends exactly one record; `order` is the completion order, a
permutation of the scheduled tasks (hypothesised where it matters).
`concurrency` sizes the semaphore, which bounds timing but not the record
set. -/
def scan_target (baseUrl : String) (paths : List String) (_concurrency : Int)
    (robotsNet : Nat → String → RobotsFetchResult) (rng : Nat → Nat)
    (scripts : Nat → Nat → AttemptResult) (jitters : Nat → Nat → Nat)
    (delayMs : Nat) (order : List (Nat × String × String)) : List ProbeOutcome :=
  (scanLoopRun baseUrl paths robotsNet rng).results ++
    workerOutcomes delayMs scripts jitters order

/-- The robots skips the loop appends, in input order: one `skipped` record
per denied path (`filterMap` keeps the input's relative order). -/
def deniedSkips (baseUrl : String) (net : Nat → String → RobotsFetchResult)
    (l : List (Nat × String)) : List ProbeOutcome :=
  l.filterMap fun ip =>
    if can_fetch_robots (net ip.1) baseUrl ip.2 = false then
      some (.skipped (probeUrl baseUrl ip.2) "disallowed_by_robots_txt")
    else none

/-- The tasks the loop schedules, with `k` the amount of the random stream
already consumed. -/
def loopTasks (baseUrl : String) (net : Nat → String → RobotsFetchResult) (rng : Nat → Nat) :
    List (Nat × String) → Nat → List (Nat × String × String)
  | [], _ => []
  | ip :: rest, k =>
    if can_fetch_robots (net ip.1) baseUrl ip.2 = false then
      loopTasks baseUrl net rng rest k
    else
      (ip.1, probeUrl baseUrl ip.2, USER_AGENTS.getD (rng k % USER_AGENTS.length) "") ::
        loopTasks baseUrl net rng rest (k + 1)

/-- How many paths of `l` the robots gate lets through. -/
def allowedCount (baseUrl : String) (net : Nat → String → RobotsFetchResult)
    (l : List (Nat × String)) : Nat :=
  l.countP fun ip => can_fetch_robots (net ip.1) baseUrl ip.2

/-- The JSON object `api_scan` returns on success (duration omitted: wall
clock). -/
structure ApiScanResponse where
  results : List ProbeOutcome
  checked : Nat

/-- Python `str.strip()`: drop leading and trailing whitespace. -/
def pyStrip (s : String) : String :=
  String.mk (((s.toList.dropWhile Char.isWhitespace).reverse.dropWhile Char.isWhitespace).reverse)

/-- `[p.strip() for p in user_paths if p and isinstance(p, str)]`. -/
def sanitizePaths (ps : List String) : List String :=
  (ps.filter (fun p => p ≠ "")).map pyStrip

/-- Path selection of `api_scan`: the default wordlist when `use_default` is
set or the user supplied no (or an empty) list, otherwise the sanitized user
paths. -/
def choosePaths (useDefault : Bool) (userPaths : Option (List String)) : List String :=
  match userPaths with
  | none => DEFAULT_WORDLIST
  | some ps => if useDefault || ps.isEmpty then DEFAULT_WORDLIST else sanitizePaths ps

/-- `int(data.get("concurrency") or CONCURRENCY)` then
`max(1, min(50, concurrency))` (app.py lines 347-348).  Python's `or` treats
the integer 0 like an absent value, so both fall back to the default 10
before the clamp. -/
def clampConcurrency (requested : Option Int) : Int :=
  let c : Int :=
    match requested with
    | none => 10
    | some v => if v = 0 then 10 else v
  max 1 (min 50 c)

/-- The scheme-prefixing normalization of `api_scan`:
`if not target.startswith(...): target = "https://" + target`. -/
def normalizeTarget (target : String) : String :=
  if strStartsWith target "http://" || strStartsWith target "https://" then target
  else "https://" ++ target

/-- `api_scan` (app.py lines 323-360): reject a missing/empty target, prefix
`https://` when no scheme is given, choose the paths, clamp the concurrency,
run the scan, and answer with the results and `checked = len(paths)`. -/
def api_scan (target : String) (useDefault : Bool) (userPaths : Option (List String))
    (requestedConcurrency : Option Int)
    (robotsNet : Nat → String → RobotsFetchResult) (rng : Nat → Nat)
    (scripts : Nat → Nat → AttemptResult) (jitters : Nat → Nat → Nat)
    (order : List (Nat × String × String)) : Except String ApiScanResponse :=
  if target = "" then .error "target is required"
  else
    let paths := choosePaths useDefault userPaths
    let conc := clampConcurrency requestedConcurrency
    .ok ⟨scan_target (normalizeTarget target) paths conc robotsNet rng scripts jitters
           appDelayMs order,
         paths.length⟩

/-- The result list of an API answer (`[]` for an error answer). -/
def apiResults : Except String ApiScanResponse → List ProbeOutcome
  | .ok r => r.results
  | .error _ => []

/-- The `checked` counter of an API answer (`0` for an error answer). -/
def apiChecked : Except String ApiScanResponse → Nat
  | .ok r => r.checked
  | .error _ => 0

/-- Is a record a robots skip (`"skipped" in r`)? -/
def isSkipRecord : ProbeOutcome → Bool
  | .skipped _ _ => true
  | _ => false

/-- Is a record a success record (`"status" in r`)? -/
def isSuccessRecord : ProbeOutcome → Bool
  | .success .. => true
  | _ => false

/-- Is a record a `client_error` failure? -/
def isClientErrorRecord : ProbeOutcome → Bool
  | .failed _ e => strStartsWith e "client_error"
  | _ => false

/-!
## The semaphore discipline of the event loop

`fetch` runs under `async with sem`; its retry branch re-invokes `fetch`,
whose body begins with another `async with sem`.  The small-step system below
makes the permit accounting of one `scan_target` call explicit: a state holds
the semaphore's free-permit count and one entry per scheduled task; a task is
identified with its position in the list, and `scripts taskIdx attemptIdx`
says what the network does to its attempts.  Suspension points follow the
code: acquiring the semaphore, finishing a `session.get`, finishing the 0.5 s
backoff, finishing the politeness sleep.  All permits a task holds are
released when its outermost `async with sem` exits (task finished). -/

/-- Where a task's `fetch` coroutine currently is. -/
inductive Phase where
  | waitingAcquire
  | probing
  | backoff
  | politeness
  | finished
deriving Repr, DecidableEq

/-- One scheduled task: permits held, phase, next attempt index, remaining
retries. -/
structure WorkerTask where
  held : Nat
  phase : Phase
  attemptIdx : Nat
  retries : Nat
deriving Repr, DecidableEq

/-- The event loop's state: free semaphore permits and the tasks. -/
structure SchedState where
  avail : Nat
  tasks : List WorkerTask
deriving Repr, DecidableEq

/-- A failure `fetch` records at once, with no retry: a timeout, a
`ClientResponseError`, an unexpected error, or a `ClientError` with no
retries left. -/
def NoRetryFailure (r : AttemptResult) (retries : Nat) : Prop :=
  r = .timeout ∨ (∃ m, r = .responseError m) ∨ (∃ m, r = .otherError m) ∨
    (∃ m, r = .clientError m ∧ retries = 0)

/-- One scheduler step.  `acquire` needs a free permit and gives it to a
waiting task (the first `async with sem` line of a `fetch` invocation —
also of the recursive invocation after a retry backoff, which therefore
takes a second permit).  A no-retry failure or the end of the politeness
sleep ends the task's outermost `async with sem`, releasing everything it
holds. -/
inductive Step (scripts : Nat → Nat → AttemptResult) : SchedState → SchedState → Prop
  | acquire (a : Nat) (l₁ : List WorkerTask) (t : WorkerTask) (l₂ : List WorkerTask) :
      t.phase = .waitingAcquire →
      Step scripts ⟨a + 1, l₁ ++ t :: l₂⟩
        ⟨a, l₁ ++ { t with held := t.held + 1, phase := .probing } :: l₂⟩
  | probeOk (a : Nat) (l₁ : List WorkerTask) (t : WorkerTask) (l₂ : List WorkerTask)
      (st : Nat) (rs fin : String) (cl : Option Nat) (sv : Option String)
      (hd : List (String × String)) :
      t.phase = .probing →
      scripts l₁.length t.attemptIdx = .ok st rs fin cl sv hd →
      Step scripts ⟨a, l₁ ++ t :: l₂⟩ ⟨a, l₁ ++ { t with phase := .politeness } :: l₂⟩
  | probeFail (a : Nat) (l₁ : List WorkerTask) (t : WorkerTask) (l₂ : List WorkerTask) :
      t.phase = .probing →
      NoRetryFailure (scripts l₁.length t.attemptIdx) t.retries →
      Step scripts ⟨a, l₁ ++ t :: l₂⟩
        ⟨a + t.held, l₁ ++ { t with held := 0, phase := .finished } :: l₂⟩
  | probeRetry (a : Nat) (l₁ : List WorkerTask) (t : WorkerTask) (l₂ : List WorkerTask)
      (m : String) (r : Nat) :
      t.phase = .probing →
      scripts l₁.length t.attemptIdx = .clientError m →
      t.retries = r + 1 →
      Step scripts ⟨a, l₁ ++ t :: l₂⟩ ⟨a, l₁ ++ { t with phase := .backoff } :: l₂⟩
  | backoffDone (a : Nat) (l₁ : List WorkerTask) (t : WorkerTask) (l₂ : List WorkerTask) :
      t.phase = .backoff →
      Step scripts ⟨a, l₁ ++ t :: l₂⟩
        ⟨a, l₁ ++ { t with phase := .waitingAcquire, attemptIdx := t.attemptIdx + 1,
                           retries := t.retries - 1 } :: l₂⟩
  | politenessDone (a : Nat) (l₁ : List WorkerTask) (t : WorkerTask) (l₂ : List WorkerTask) :
      t.phase = .politeness →
      Step scripts ⟨a, l₁ ++ t :: l₂⟩
        ⟨a + t.held, l₁ ++ { t with held := 0, phase := .finished } :: l₂⟩

/-- Reachability by scheduler steps. -/
inductive Reach (scripts : Nat → Nat → AttemptResult) (c₀ : SchedState) : SchedState → Prop
  | refl : Reach scripts c₀ c₀
  | tail {c c' : SchedState} : Reach scripts c₀ c → Step scripts c c' → Reach scripts c₀ c'

/-- `scan_target`'s initial scheduler state: a semaphore of `n` permits and
`k` scheduled tasks, each about to run `fetch(..., retries=1)`. -/
def initSched (n k : Nat) : SchedState :=
  ⟨n, List.replicate k ⟨0, .waitingAcquire, 0, 1⟩⟩

/-- Permits held across all tasks. -/
def heldSum (c : SchedState) : Nat :=
  (c.tasks.map WorkerTask.held).sum

/-- How many probes are in flight (tasks inside `session.get`). -/
def probingCount (c : SchedState) : Nat :=
  c.tasks.countP fun t => t.phase == .probing

/-- The semaphore invariant: free permits plus held permits total the
semaphore's size, and a probing task holds at least one permit. -/
def SemInv (n : Nat) (c : SchedState) : Prop :=
  c.avail + heldSum c = n ∧ ∀ t ∈ c.tasks, t.phase = .probing → 1 ≤ t.held

/-!
## Concrete fixtures

Small concrete environments used to instantiate theorems. -/

/-- A network on which every robots.txt fetch raises (host unreachable). -/
def netDown : Nat → String → RobotsFetchResult := fun _ _ => .fetchError "unreachable"

/-- A parsed robots.txt that disallows everything for `*`. -/
def denyAllRules : RobotsRules := ⟨fun _ => false⟩

/-- A network whose robots.txt parses and disallows every URL. -/
def netDenyAll : Nat → String → RobotsFetchResult := fun _ _ => .fetched denyAllRules

/-- A random stream that always yields 0. -/
def rngZero : Nat → Nat := fun _ => 0

/-- A random stream that always yields 3 (`USER_AGENTS[3] = "curl/8.0.1"`). -/
def rngThree : Nat → Nat := fun _ => 3

/-- A 200 OK response. -/
def okAttempt : AttemptResult :=
  .ok 200 "OK" "https://example.test/a" (some 5) (some "nginx") [("Server", "nginx")]

/-- Every attempt of every task succeeds. -/
def scriptsAllOk : Nat → Nat → AttemptResult := fun _ _ => okAttempt

/-- No politeness jitter. -/
def jittersZero : Nat → Nat → Nat := fun _ _ => 0

/-- Every attempt raises a transport-level `ClientError`. -/
def allClientErrScripts : Nat → Nat → AttemptResult :=
  fun _ _ => .clientError "Connection reset by peer"

/-- First attempt: connection reset; second attempt: timeout. -/
def clientThenTimeoutScript : Nat → AttemptResult :=
  fun n => if n = 0 then .clientError "Connection reset by peer" else .timeout

/-!
## Lemmas about one `fetch` run -/

/-- Every run of `fetch` appends exactly one record to `results`, whatever
the network does and however often it retries. -/
theorem fetchGo_outcomes_length (d : Nat) (url : String) (s : Nat → AttemptResult)
    (j : Nat → Nat) : ∀ (r i : Nat), (fetchGo d url s j i r).outcomes.length = 1 := by
  intro r
  induction r with
  | zero =>
    intro i
    rcases h : s i with ⟨st, rs, fin, cl, sv, hd⟩ | _ | m | m | m <;>
      rw [fetchGo.eq_def, h] <;> simp
  | succ r ih =>
    intro i
    rcases h : s i with ⟨st, rs, fin, cl, sv, hd⟩ | _ | m | m | m <;>
      rw [fetchGo.eq_def, h] <;> simp [ih]

/-- `fetch` never appends a robots-skip record. -/
theorem fetchGo_no_skip (d : Nat) (url : String) (s : Nat → AttemptResult)
    (j : Nat → Nat) : ∀ (r i : Nat) (o : ProbeOutcome),
    o ∈ (fetchGo d url s j i r).outcomes → isSkipRecord o = false := by
  intro r
  induction r with
  | zero =>
    intro i o ho
    rcases h : s i with ⟨st, rs, fin, cl, sv, hd⟩ | _ | m | m | m <;>
      rw [fetchGo.eq_def, h] at ho <;> simp at ho <;> simp [ho, isSkipRecord]
  | succ r ih =>
    intro i o ho
    rcases h : s i with ⟨st, rs, fin, cl, sv, hd⟩ | _ | m | m | m <;>
      rw [fetchGo.eq_def, h] at ho <;> simp at ho
    case ok => simp [ho, isSkipRecord]
    case timeout => simp [ho, isSkipRecord]
    case responseError => simp [ho, isSkipRecord]
    case clientError => exact ih (i + 1) o ho
    case otherError => simp [ho, isSkipRecord]

/-- `fetch` makes at most `retries + 1` attempts. -/
theorem fetchGo_attempts_le (d : Nat) (url : String) (s : Nat → AttemptResult)
    (j : Nat → Nat) : ∀ (r i : Nat), (fetchGo d url s j i r).attempts ≤ r + 1 := by
  intro r
  induction r with
  | zero =>
    intro i
    rcases h : s i with ⟨st, rs, fin, cl, sv, hd⟩ | _ | m | m | m <;>
      rw [fetchGo.eq_def, h]
  | succ r ih =>
    intro i
    rcases h : s i with ⟨st, rs, fin, cl, sv, hd⟩ | _ | m | m | m <;>
      rw [fetchGo.eq_def, h] <;> simp
    case clientError =>
      have := ih (i + 1)
      omega

/-- `fetch` performs exactly one politeness sleep per success record it
appends, and none for a failure record. -/
theorem fetchGo_politeness_count (d : Nat) (url : String) (s : Nat → AttemptResult)
    (j : Nat → Nat) : ∀ (r i : Nat),
    (fetchGo d url s j i r).politenessSleepsMs.length =
      (fetchGo d url s j i r).outcomes.countP isSuccessRecord := by
  intro r
  induction r with
  | zero =>
    intro i
    rcases h : s i with ⟨st, rs, fin, cl, sv, hd⟩ | _ | m | m | m <;>
      rw [fetchGo.eq_def, h] <;> simp [isSuccessRecord, List.countP_cons]
  | succ r ih =>
    intro i
    rcases h : s i with ⟨st, rs, fin, cl, sv, hd⟩ | _ | m | m | m <;>
      rw [fetchGo.eq_def, h] <;> simp [isSuccessRecord, List.countP_cons, ih]

/-- Every politeness sleep lasts the configured base delay plus the jitter
of some attempt. -/
theorem fetchGo_politeness_values (d : Nat) (url : String) (s : Nat → AttemptResult)
    (j : Nat → Nat) : ∀ (r i : Nat) (x : Nat),
    x ∈ (fetchGo d url s j i r).politenessSleepsMs → ∃ k, x = d + j k := by
  intro r
  induction r with
  | zero =>
    intro i x hx
    rcases h : s i with ⟨st, rs, fin, cl, sv, hd⟩ | _ | m | m | m <;>
      rw [fetchGo.eq_def, h] at hx <;> simp at hx
    case ok => exact ⟨i, hx⟩
  | succ r ih =>
    intro i x hx
    rcases h : s i with ⟨st, rs, fin, cl, sv, hd⟩ | _ | m | m | m <;>
      rw [fetchGo.eq_def, h] at hx <;> simp at hx
    case ok => exact ⟨i, hx⟩
    case clientError => exact ih (i + 1) x hx

/-- The gathered workers append exactly one record per scheduled task. -/
theorem workerOutcomes_length (d : Nat) (scripts : Nat → Nat → AttemptResult)
    (jitters : Nat → Nat → Nat) (tasks : List (Nat × String × String)) :
    (workerOutcomes d scripts jitters tasks).length = tasks.length := by
  induction tasks with
  | nil => simp [workerOutcomes]
  | cons t ts ih =>
    simp only [workerOutcomes, List.map_cons, List.flatten_cons, List.length_append,
      List.length_cons] at ih ⊢
    rw [fetchTop, fetchGo_outcomes_length, ih]
    omega

/-- No worker record is a robots skip. -/
theorem workerOutcomes_no_skip (d : Nat) (scripts : Nat → Nat → AttemptResult)
    (jitters : Nat → Nat → Nat) (tasks : List (Nat × String × String)) :
    ∀ o ∈ workerOutcomes d scripts jitters tasks, isSkipRecord o = false := by
  intro o ho
  simp only [workerOutcomes, List.mem_flatten, List.mem_map] at ho
  obtain ⟨l, ⟨t, _, rfl⟩, hol⟩ := ho
  exact fetchGo_no_skip d t.2.1 (scripts t.1) (jitters t.1) 1 0 o hol

/-!
## Lemmas about the scheduling loop -/

/-- Running the loop from any state appends exactly the input-order robots
skips to `results` and the permitted tasks to `tasks`, consuming one random
draw per permitted path. -/
theorem scanLoop_eq (baseUrl : String) (net : Nat → String → RobotsFetchResult)
    (rng : Nat → Nat) : ∀ (l : List (Nat × String)) (s : LoopState),
    scanLoop baseUrl net rng l s =
      ⟨s.results ++ deniedSkips baseUrl net l,
       s.tasks ++ loopTasks baseUrl net rng l s.rngIdx,
       s.rngIdx + allowedCount baseUrl net l⟩ := by
  intro l
  induction l with
  | nil => intro s; simp [scanLoop, deniedSkips, loopTasks, allowedCount]
  | cons ip rest ih =>
    intro s
    obtain ⟨i, p⟩ := ip
    by_cases h : can_fetch_robots (net i) baseUrl p = false
    · simp [scanLoop, h, deniedSkips, loopTasks, allowedCount, ih, List.countP_cons]
    · simp only [Bool.not_eq_false] at h
      simp [scanLoop, h, deniedSkips, loopTasks, allowedCount, ih, List.countP_cons]
      omega

/-- The loop's `results` are exactly the denied paths' skips, in input
order. -/
theorem scanLoopRun_results (baseUrl : String) (paths : List String)
    (net : Nat → String → RobotsFetchResult) (rng : Nat → Nat) :
    (scanLoopRun baseUrl paths net rng).results = deniedSkips baseUrl net paths.enum := by
  rw [scanLoopRun, scanLoop_eq]
  simp

/-- The loop's `tasks` are exactly the permitted paths' tasks. -/
theorem scanLoopRun_tasks (baseUrl : String) (paths : List String)
    (net : Nat → String → RobotsFetchResult) (rng : Nat → Nat) :
    (scanLoopRun baseUrl paths net rng).tasks = loopTasks baseUrl net rng paths.enum 0 := by
  rw [scanLoopRun, scanLoop_eq]
  simp

/-- Skips and scheduled tasks together account for every input path. -/
theorem skips_tasks_length (baseUrl : String) (net : Nat → String → RobotsFetchResult)
    (rng : Nat → Nat) : ∀ (l : List (Nat × String)) (k : Nat),
    (deniedSkips baseUrl net l).length + (loopTasks baseUrl net rng l k).length = l.length := by
  intro l
  induction l with
  | nil => intro k; simp [deniedSkips, loopTasks]
  | cons ip rest ih =>
    intro k
    by_cases h : can_fetch_robots (net ip.1) baseUrl ip.2 = false
    · simp [deniedSkips, loopTasks, h, ← ih k]
      omega
    · simp [deniedSkips, loopTasks, h, ← ih (k + 1)]
      omega

/-- Every scheduled task carries a path the robots gate permitted, and its
URL is the resolver's output for that path. -/
theorem loopTasks_mem (baseUrl : String) (net : Nat → String → RobotsFetchResult)
    (rng : Nat → Nat) : ∀ (l : List (Nat × String)) (k : Nat) (t : Nat × String × String),
    t ∈ loopTasks baseUrl net rng l k →
    ∃ p, (t.1, p) ∈ l ∧ can_fetch_robots (net t.1) baseUrl p = true ∧
      t.2.1 = probeUrl baseUrl p := by
  intro l
  induction l with
  | nil => intro k t ht; simp [loopTasks] at ht
  | cons ip rest ih =>
    intro k t ht
    by_cases h : can_fetch_robots (net ip.1) baseUrl ip.2 = false
    · rw [loopTasks, if_pos h] at ht
      obtain ⟨p, hp, hc, hu⟩ := ih k t ht
      exact ⟨p, List.mem_cons_of_mem _ hp, hc, hu⟩
    · rw [loopTasks, if_neg h] at ht
      simp only [Bool.not_eq_false] at h
      rcases List.mem_cons.mp ht with rfl | ht
      · exact ⟨ip.2, by simp, h, rfl⟩
      · obtain ⟨p, hp, hc, hu⟩ := ih (k + 1) t ht
        exact ⟨p, List.mem_cons_of_mem _ hp, hc, hu⟩

/-!
## Lemmas about the semaphore discipline -/

/-- Replacing the distinguished task preserves a pointwise property that the
old list had and the new task has. -/
theorem mem_update_frame {Q : WorkerTask → Prop} {l₁ l₂ : List WorkerTask}
    {t t' : WorkerTask} (hold : ∀ u ∈ l₁ ++ t :: l₂, Q u) (hnew : Q t') :
    ∀ u ∈ l₁ ++ t' :: l₂, Q u := by
  intro u hu
  rcases List.mem_append.mp hu with h | h
  · exact hold u (List.mem_append.mpr (Or.inl h))
  · rcases List.mem_cons.mp h with rfl | h
    · exact hnew
    · exact hold u (List.mem_append.mpr (Or.inr (List.mem_cons_of_mem _ h)))

/-- Held-permit sum of a decomposed task list. -/
theorem heldSum_decomp (a : Nat) (l₁ l₂ : List WorkerTask) (t : WorkerTask) :
    heldSum ⟨a, l₁ ++ t :: l₂⟩ =
      (l₁.map WorkerTask.held).sum + t.held + (l₂.map WorkerTask.held).sum := by
  simp [heldSum]
  omega

/-- Every scheduler step preserves the semaphore invariant. -/
theorem semInv_step {scripts : Nat → Nat → AttemptResult} {n : Nat} {c c' : SchedState}
    (hinv : SemInv n c) (hs : Step scripts c c') : SemInv n c' := by
  obtain ⟨hsum, hpt⟩ := hinv
  cases hs with
  | acquire a l₁ t l₂ hph =>
    refine ⟨?_, mem_update_frame hpt ?_⟩
    · rw [heldSum_decomp] at hsum ⊢
      simp at hsum ⊢
      omega
    · intro _
      simp
  | probeOk a l₁ t l₂ st rs fin cl sv hd hph hscr =>
    refine ⟨?_, mem_update_frame hpt ?_⟩
    · rw [heldSum_decomp] at hsum ⊢
      simpa using hsum
    · intro h
      simp at h
  | probeFail a l₁ t l₂ hph hcl =>
    refine ⟨?_, mem_update_frame hpt ?_⟩
    · rw [heldSum_decomp] at hsum ⊢
      simp at hsum ⊢
      omega
    · intro h
      simp at h
  | probeRetry a l₁ t l₂ m r hph hscr hr =>
    refine ⟨?_, mem_update_frame hpt ?_⟩
    · rw [heldSum_decomp] at hsum ⊢
      simpa using hsum
    · intro h
      simp at h
  | backoffDone a l₁ t l₂ hph =>
    refine ⟨?_, mem_update_frame hpt ?_⟩
    · rw [heldSum_decomp] at hsum ⊢
      simpa using hsum
    · intro h
      simp at h
  | politenessDone a l₁ t l₂ hph =>
    refine ⟨?_, mem_update_frame hpt ?_⟩
    · rw [heldSum_decomp] at hsum ⊢
      simp at hsum ⊢
      omega
    · intro h
      simp at h

/-- The invariant holds in every reachable state. -/
theorem semInv_reach {scripts : Nat → Nat → AttemptResult} {n k : Nat} {c : SchedState}
    (h : Reach scripts (initSched n k) c) : SemInv n c := by
  induction h with
  | refl =>
    constructor
    · simp [initSched, heldSum, List.map_replicate]
    · intro t ht hp
      rw [initSched] at ht
      simp at ht
      rw [ht.2] at hp
      simp at hp
  | tail _ hs ih => exact semInv_step ih hs

/-- In a list where every probing task holds a permit, there are no more
probing tasks than held permits. -/
theorem probing_le_held : ∀ (l : List WorkerTask),
    (∀ t ∈ l, t.phase = .probing → 1 ≤ t.held) →
    (l.countP fun t => t.phase == .probing) ≤ (l.map WorkerTask.held).sum := by
  intro l
  induction l with
  | nil => simp
  | cons t ts ih =>
    intro h
    rw [List.countP_cons]
    have hts := ih fun u hu => h u (List.mem_cons_of_mem _ hu)
    by_cases hp : t.phase = Phase.probing
    · have := h t (List.mem_cons_self _ _) hp
      simp [hp]
      omega
    · simp [hp]
      omega

/-- The semaphore really is an admission gate: in every reachable scheduler
state, no more probes are in flight than the semaphore's size. -/
theorem probing_bounded {scripts : Nat → Nat → AttemptResult} {n k : Nat} {c : SchedState}
    (h : Reach scripts (initSched n k) c) : probingCount c ≤ n := by
  obtain ⟨hsum, hpt⟩ := semInv_reach h
  have := probing_le_held c.tasks hpt
  rw [probingCount]
  rw [heldSum] at hsum
  omega

/-!
## The claims -/

/-- C3: for every base URL and path, if fetching or parsing robots.txt
raises any error, the gate returns `allowed = true` (fail-open), and the
check consumes exactly one fetch response — no retry of the robots fetch. -/
theorem robots_gate_fails_open (net : String → RobotsFetchResult) (baseUrl p m : String)
    (rest : List RobotsFetchResult) (h : net (robotsUrlOf baseUrl) = .fetchError m) :
    can_fetch_robots net baseUrl p = true ∧
    can_fetch_robotsStream (.fetchError m :: rest) baseUrl p = (true, rest) := by
  constructor
  · simp [can_fetch_robots, h]
  · simp [can_fetch_robotsStream, can_fetch_robots]

/-- C3 witness: a concrete unreachable network is allowed through. -/
theorem robots_gate_fails_open_witness :
    can_fetch_robots (netDown 0) "https://example.test" "admin" = true ∧
    can_fetch_robotsStream [RobotsFetchResult.fetchError "unreachable"]
        "https://example.test" "admin" = (true, []) :=
  robots_gate_fails_open (netDown 0) "https://example.test" "admin" "unreachable" [] rfl

/-- C9 counterexample: a requested concurrency of 0 is below 1, but the
engine uses 10 for it (Python's `or` sends the falsy 0 to the default before
the clamp), not the clamp floor 1. -/
theorem clamp_zero_concurrency :
    clampConcurrency (some 0) = 10 ∧ decide (clampConcurrency (some 0) = 1) = false :=
  ⟨by decide, by decide⟩

/-- C9 amended: the used concurrency is the requested integer clamped to
[1, 50], except that a requested 0 (like an absent value) first falls back
to the default 10; nonzero values below 1 use 1, values above 50 use 50,
in-range values are used unchanged. -/
theorem clamp_concurrency_amended (v : Int) :
    clampConcurrency none = 10 ∧ clampConcurrency (some 0) = 10 ∧
    (v ≠ 0 → v < 1 → clampConcurrency (some v) = 1) ∧
    (50 < v → clampConcurrency (some v) = 50) ∧
    (1 ≤ v → v ≤ 50 → clampConcurrency (some v) = v) := by
  refine ⟨by decide, by decide, ?_, ?_, ?_⟩
  · intro hne hlt
    simp [clampConcurrency, hne]
    omega
  · intro hgt
    have hne : ¬ v = 0 := by omega
    simp [clampConcurrency, hne]
    omega
  · intro h1 h50
    have hne : ¬ v = 0 := by omega
    simp [clampConcurrency, hne]
    omega

/-- C4 counterexample: a first-attempt transport error followed by a
second-attempt timeout is retried, but the second failure is recorded as
`timeout`, not as `client_error` as the claim states. -/
theorem retry_second_failure_not_client_error :
    (fetchTop appDelayMs "https://example.test/a" clientThenTimeoutScript (fun _ => 0)).outcomes
      = [ProbeOutcome.failed "https://example.test/a" "timeout"] ∧
    (fetchTop appDelayMs "https://example.test/a" clientThenTimeoutScript
        (fun _ => 0)).outcomes.countP isClientErrorRecord = 0 ∧
    (fetchTop appDelayMs "https://example.test/a" clientThenTimeoutScript (fun _ => 0)).attempts
      = 2 :=
  ⟨by decide, by decide, by decide⟩

/-- C4 amended: a first-attempt transport error triggers exactly one retry
after a fixed 0.5 s backoff; the second attempt's outcome is recorded under
its own classification (a second transport failure as `client_error`, a
success as a Success record); a timeout, response-level error or other
unexpected error on the first attempt is recorded at once with no retry; at
most two attempts are ever made. -/
theorem retry_policy_amended (url : String) (script : Nat → AttemptResult)
    (jitterMs : Nat → Nat) (delayMs : Nat) :
    (fetchTop delayMs url script jitterMs).attempts ≤ 2 ∧
    (script 0 = .timeout →
      (fetchTop delayMs url script jitterMs).attempts = 1 ∧
      (fetchTop delayMs url script jitterMs).outcomes = [.failed url "timeout"]) ∧
    (∀ m, script 0 = .responseError m →
      (fetchTop delayMs url script jitterMs).attempts = 1 ∧
      (fetchTop delayMs url script jitterMs).outcomes
        = [.failed url ("response_error: " ++ m)]) ∧
    (∀ m, script 0 = .otherError m →
      (fetchTop delayMs url script jitterMs).attempts = 1 ∧
      (fetchTop delayMs url script jitterMs).outcomes
        = [.failed url ("other_error: " ++ m)]) ∧
    (∀ m st rs fin cl sv hd, script 0 = .clientError m → script 1 = .ok st rs fin cl sv hd →
      (fetchTop delayMs url script jitterMs).attempts = 2 ∧
      (fetchTop delayMs url script jitterMs).backoffSleepsMs = [500] ∧
      (fetchTop delayMs url script jitterMs).outcomes = [.success url st rs fin cl sv hd]) ∧
    (∀ m m', script 0 = .clientError m → script 1 = .clientError m' →
      (fetchTop delayMs url script jitterMs).attempts = 2 ∧
      (fetchTop delayMs url script jitterMs).backoffSleepsMs = [500] ∧
      (fetchTop delayMs url script jitterMs).outcomes
        = [.failed url ("client_error: " ++ m')]) := by
  refine ⟨fetchGo_attempts_le delayMs url script jitterMs 1 0, ?_, ?_, ?_, ?_, ?_⟩
  · intro h
    rw [fetchTop, fetchGo.eq_def, h]
    simp
  · intro m h
    rw [fetchTop, fetchGo.eq_def, h]
    simp
  · intro m h
    rw [fetchTop, fetchGo.eq_def, h]
    simp
  · intro m st rs fin cl sv hd h0 h1
    rw [fetchTop, fetchGo.eq_def, h0]
    simp only
    rw [fetchGo.eq_def, h1]
    simp
  · intro m m' h0 h1
    rw [fetchTop, fetchGo.eq_def, h0]
    simp only
    rw [fetchGo.eq_def, h1]
    simp

/-- C5 counterexample: a probe whose outcome is a timeout failure performs
no politeness pause at all, refuting "after every outcome — success or
failure". -/
theorem politeness_pause_absent_on_failure :
    (fetchTop appDelayMs "https://example.test/a" (fun _ => AttemptResult.timeout)
        (fun _ => 0)).outcomes.length = 1 ∧
    (fetchTop appDelayMs "https://example.test/a" (fun _ => AttemptResult.timeout)
        (fun _ => 0)).politenessSleepsMs = [] :=
  ⟨by decide, by decide⟩

/-- C5 amended: the worker pauses exactly once per success record (and never
for a failure record), for the configured base delay plus that attempt's
jitter; with jitter below 0.1 s every pause lasts at least the base delay
and less than the base delay plus 0.1 s. -/
theorem politeness_pause_amended (url : String) (script : Nat → AttemptResult)
    (jitterMs : Nat → Nat) (delayMs : Nat) :
    ((fetchTop delayMs url script jitterMs).politenessSleepsMs.length =
      (fetchTop delayMs url script jitterMs).outcomes.countP isSuccessRecord) ∧
    (∀ x ∈ (fetchTop delayMs url script jitterMs).politenessSleepsMs,
      ∃ k, x = delayMs + jitterMs k) ∧
    ((∀ k, jitterMs k < 100) →
      ∀ x ∈ (fetchTop delayMs url script jitterMs).politenessSleepsMs,
        delayMs ≤ x ∧ x < delayMs + 100) := by
  refine ⟨fetchGo_politeness_count delayMs url script jitterMs 1 0,
    fun x hx => fetchGo_politeness_values delayMs url script jitterMs 1 0 x hx, ?_⟩
  intro hj x hx
  obtain ⟨k, rfl⟩ := fetchGo_politeness_values delayMs url script jitterMs 1 0 x hx
  have := hj k
  omega

/-- A scan appends exactly one record per input path: the skips plus one
worker record per scheduled task, for any completion order of the tasks. -/
theorem scan_target_length (baseUrl : String) (paths : List String) (conc : Int)
    (net : Nat → String → RobotsFetchResult) (rng : Nat → Nat)
    (scripts : Nat → Nat → AttemptResult) (jitters : Nat → Nat → Nat) (delayMs : Nat)
    (order : List (Nat × String × String))
    (horder : order.Perm (scanLoopRun baseUrl paths net rng).tasks) :
    (scan_target baseUrl paths conc net rng scripts jitters delayMs order).length
      = paths.length := by
  rw [scan_target, List.length_append, workerOutcomes_length, horder.length_eq,
    scanLoopRun_results, scanLoopRun_tasks, skips_tasks_length baseUrl net rng paths.enum 0,
    List.enum_length]

/-- C1: for every scan, every input path produces exactly one record: the
result list's length equals the `checked` counter, which equals the number
of input paths (the completion order being any permutation of the scheduled
tasks). -/
theorem scan_every_path_one_outcome (target : String) (useDefault : Bool)
    (userPaths : Option (List String)) (reqConc : Option Int)
    (net : Nat → String → RobotsFetchResult) (rng : Nat → Nat)
    (scripts : Nat → Nat → AttemptResult) (jitters : Nat → Nat → Nat)
    (order : List (Nat × String × String)) (htarget : target ≠ "")
    (horder : order.Perm (scanLoopRun (normalizeTarget target)
        (choosePaths useDefault userPaths) net rng).tasks) :
    (apiResults (api_scan target useDefault userPaths reqConc net rng scripts jitters
        order)).length
      = apiChecked (api_scan target useDefault userPaths reqConc net rng scripts jitters
        order) ∧
    apiChecked (api_scan target useDefault userPaths reqConc net rng scripts jitters order)
      = (choosePaths useDefault userPaths).length := by
  rw [api_scan, if_neg htarget]
  simp only [apiResults, apiChecked]
  exact ⟨scan_target_length _ _ _ _ _ _ _ _ _ horder, trivial⟩

/-- C1 witness: a concrete two-path scan returns two records and
`checked = 2`, with the completion order equal to the scheduling order. -/
theorem scan_every_path_one_outcome_witness :
    (apiResults (api_scan "https://example.test" false (some ["a", "b"]) (some 3) netDown
        rngZero scriptsAllOk jittersZero
        (scanLoopRun (normalizeTarget "https://example.test")
          (choosePaths false (some ["a", "b"])) netDown rngZero).tasks)).length
      = apiChecked (api_scan "https://example.test" false (some ["a", "b"]) (some 3) netDown
        rngZero scriptsAllOk jittersZero
        (scanLoopRun (normalizeTarget "https://example.test")
          (choosePaths false (some ["a", "b"])) netDown rngZero).tasks) ∧
    apiChecked (api_scan "https://example.test" false (some ["a", "b"]) (some 3) netDown
        rngZero scriptsAllOk jittersZero
        (scanLoopRun (normalizeTarget "https://example.test")
          (choosePaths false (some ["a", "b"])) netDown rngZero).tasks)
      = (choosePaths false (some ["a", "b"])).length :=
  scan_every_path_one_outcome "https://example.test" false (some ["a", "b"]) (some 3)
    netDown rngZero scriptsAllOk jittersZero _ (by decide) (List.Perm.refl _)

/-- C10: in every scan result, all robots skips (in input order, as
`deniedSkips` is the input-order `filterMap`) precede every worker record,
and no worker record is a skip — the loop appends all skips before
`asyncio.gather` first awaits any task. -/
theorem skips_precede_worker_outcomes (baseUrl : String) (paths : List String) (conc : Int)
    (net : Nat → String → RobotsFetchResult) (rng : Nat → Nat)
    (scripts : Nat → Nat → AttemptResult) (jitters : Nat → Nat → Nat) (delayMs : Nat)
    (order : List (Nat × String × String)) :
    scan_target baseUrl paths conc net rng scripts jitters delayMs order =
      deniedSkips baseUrl net paths.enum ++ workerOutcomes delayMs scripts jitters order ∧
    ∀ o ∈ workerOutcomes delayMs scripts jitters order, isSkipRecord o = false := by
  constructor
  · rw [scan_target, scanLoopRun_results]
  · exact workerOutcomes_no_skip delayMs scripts jitters order

/-- C6 counterexample: the skip record's reason tag is the underscored
string `"disallowed_by_robots_txt"`, not `"disallowed by robots.txt"` as the
claim quotes it. -/
theorem robots_skip_reason_string :
    scan_target "https://example.test" ["blocked"] 10 netDenyAll rngZero scriptsAllOk
        jittersZero appDelayMs []
      = [ProbeOutcome.skipped "https://example.test/blocked" "disallowed_by_robots_txt"] ∧
    decide ("disallowed_by_robots_txt" = "disallowed by robots.txt") = false :=
  ⟨by decide, by decide⟩

/-- C6 amended: a path the robots gate denies gets a Skipped record with
reason `"disallowed_by_robots_txt"` appended at once, and no task is ever
scheduled for it — so no probe is issued and no semaphore slot is consumed
for that path. -/
theorem robots_denied_no_probe (baseUrl : String) (net : Nat → String → RobotsFetchResult)
    (rng : Nat → Nat) (paths : List String) (i : Nat) (p : String)
    (hp : paths[i]? = some p)
    (hdeny : can_fetch_robots (net i) baseUrl p = false) :
    ProbeOutcome.skipped (probeUrl baseUrl p) "disallowed_by_robots_txt"
        ∈ (scanLoopRun baseUrl paths net rng).results ∧
    ∀ t ∈ (scanLoopRun baseUrl paths net rng).tasks, t.1 ≠ i := by
  constructor
  · rw [scanLoopRun_results, deniedSkips]
    refine List.mem_filterMap.mpr ⟨(i, p), List.mk_mem_enum_iff_getElem?.mpr hp, ?_⟩
    simp [hdeny]
  · intro t ht hti
    rw [scanLoopRun_tasks] at ht
    obtain ⟨q, hq, hallow, -⟩ := loopTasks_mem baseUrl net rng paths.enum 0 t ht
    rw [hti] at hq hallow
    have hpq : paths[i]? = some q := List.mk_mem_enum_iff_getElem?.mp hq
    rw [hp] at hpq
    obtain rfl : p = q := Option.some_injective _ hpq
    rw [hallow] at hdeny
    exact Bool.noConfusion hdeny

/-- C6 witness: a concrete denied path yields its skip record and no task. -/
theorem robots_denied_no_probe_witness :
    ProbeOutcome.skipped (probeUrl "https://example.test" "blocked")
        "disallowed_by_robots_txt"
      ∈ (scanLoopRun "https://example.test" ["blocked"] netDenyAll rngZero).results ∧
    ∀ t ∈ (scanLoopRun "https://example.test" ["blocked"] netDenyAll rngZero).tasks,
      t.1 ≠ 0 :=
  robots_denied_no_probe "https://example.test" netDenyAll rngZero ["blocked"] 0 "blocked"
    (by decide) (by decide)

/-- C7 counterexample: for base `https://example.test/app` and path `admin`
the robots gate evaluates `https://example.test/admin` while the probe
requests `https://example.test/app/admin` — not the same URL. -/
theorem robots_gate_url_mismatch :
    robotsEvaluatedUrl "https://example.test/app" "admin" = "https://example.test/admin" ∧
    probeUrl "https://example.test/app" "admin" = "https://example.test/app/admin" ∧
    decide (robotsEvaluatedUrl "https://example.test/app" "admin"
      = probeUrl "https://example.test/app" "admin") = false :=
  ⟨by decide, by decide, by decide⟩

/-- C7 amended: the robots gate evaluates `urljoin(base, path)` on the raw
inputs; this coincides with the probe's URL exactly when the base is already
in normalized form (one trailing slash) and the path carries no leading
slash — for other inputs the two URLs can differ. -/
theorem robots_gate_url_amended (baseUrl p : String)
    (hbase : rstripSlash baseUrl ++ "/" = baseUrl) (hpath : lstripSlash p = p) :
    robotsEvaluatedUrl baseUrl p = probeUrl baseUrl p := by
  rw [probeUrl, hbase, hpath, robotsEvaluatedUrl]

/-- C7 witness: for an already-normalized base and clean path the two URLs
agree. -/
theorem robots_gate_url_amended_witness :
    robotsEvaluatedUrl "https://example.test/" "admin"
      = probeUrl "https://example.test/" "admin" :=
  robots_gate_url_amended "https://example.test/" "admin" (by decide) (by decide)

/-- C8: path resolution is pure and deterministic: in any two scans against
the same base — different robots answers, different random streams,
different sibling paths, different positions — the URL scheduled for a given
path string is identical, namely `probeUrl base p`; `probeUrl` is total, so
there is no error path. -/
theorem resolution_pure (baseUrl p : String)
    (net net' : Nat → String → RobotsFetchResult) (rng rng' : Nat → Nat)
    (paths paths' : List String) (t t' : Nat × String × String)
    (ht : t ∈ (scanLoopRun baseUrl paths net rng).tasks)
    (ht' : t' ∈ (scanLoopRun baseUrl paths' net' rng').tasks)
    (hp : paths[t.1]? = some p) (hp' : paths'[t'.1]? = some p) :
    t.2.1 = t'.2.1 ∧ t.2.1 = probeUrl baseUrl p := by
  rw [scanLoopRun_tasks] at ht ht'
  obtain ⟨q, hq, -, hu⟩ := loopTasks_mem baseUrl net rng paths.enum 0 t ht
  obtain ⟨q', hq', -, hu'⟩ := loopTasks_mem baseUrl net' rng' paths'.enum 0 t' ht'
  have hpq : paths[t.1]? = some q := List.mk_mem_enum_iff_getElem?.mp hq
  have hpq' : paths'[t'.1]? = some q' := List.mk_mem_enum_iff_getElem?.mp hq'
  rw [hp] at hpq
  rw [hp'] at hpq'
  obtain rfl : p = q := Option.some_injective _ hpq
  obtain rfl : p = q' := Option.some_injective _ hpq'
  exact ⟨hu.trans hu'.symm, hu⟩

/-- C8 witness: the same path at different positions in different scans
resolves to the same URL. -/
theorem resolution_pure_witness :
    ((1, "https://example.test/admin", "curl/8.0.1") : Nat × String × String).2.1
      = ((0, "https://example.test/admin", "curl/8.0.1") : Nat × String × String).2.1 ∧
    ((1, "https://example.test/admin", "curl/8.0.1") : Nat × String × String).2.1
      = probeUrl "https://example.test" "admin" :=
  resolution_pure "https://example.test" "admin" netDown netDown rngThree rngThree
    ["x", "admin"] ["admin"]
    (1, "https://example.test/admin", "curl/8.0.1")
    (0, "https://example.test/admin", "curl/8.0.1")
    (by decide) (by decide) (by decide) (by decide)

/-- A nonempty decomposition matching a one-element list is trivial. -/
theorem singleton_decomp {l₁ l₂ : List WorkerTask} {t x : WorkerTask}
    (h : l₁ ++ t :: l₂ = [x]) : l₁ = [] ∧ t = x ∧ l₂ = [] := by
  cases l₁ with
  | nil =>
    simp at h
    exact ⟨rfl, h.1, h.2⟩
  | cons y ys =>
    simp at h

/-- Every scheduler step acts on some task that is waiting (with a free
permit available), probing, backing off, or pausing. -/
theorem step_src_decomp {scripts : Nat → Nat → AttemptResult} {c c' : SchedState}
    (h : Step scripts c c') :
    ∃ l₁ t l₂, c.tasks = l₁ ++ t :: l₂ ∧
      ((t.phase = .waitingAcquire ∧ ∃ a, c.avail = a + 1) ∨
        t.phase = .probing ∨ t.phase = .backoff ∨ t.phase = .politeness) := by
  cases h with
  | acquire a l₁ t l₂ hph => exact ⟨l₁, t, l₂, rfl, Or.inl ⟨hph, a, rfl⟩⟩
  | probeOk a l₁ t l₂ st rs fin cl sv hd hph hscr => exact ⟨l₁, t, l₂, rfl, Or.inr (Or.inl hph)⟩
  | probeFail a l₁ t l₂ hph hcl => exact ⟨l₁, t, l₂, rfl, Or.inr (Or.inl hph)⟩
  | probeRetry a l₁ t l₂ m r hph hscr hr => exact ⟨l₁, t, l₂, rfl, Or.inr (Or.inl hph)⟩
  | backoffDone a l₁ t l₂ hph => exact ⟨l₁, t, l₂, rfl, Or.inr (Or.inr (Or.inl hph))⟩
  | politenessDone a l₁ t l₂ hph => exact ⟨l₁, t, l₂, rfl, Or.inr (Or.inr (Or.inr hph))⟩

/-- C2: the retry does NOT keep only its original semaphore slot.  With a
one-permit semaphore and a single path whose first attempt raises a
transport error, the scheduler reaches a state where the unfinished task
waits to re-enter the semaphore it itself holds — no step exists: the scan
hangs forever.  With two permits, one retrying task reaches a state where it
holds two permits at once (the re-invoked `fetch` has re-entered
`async with sem`). -/
theorem semaphore_retry_deadlock :
    Reach allClientErrScripts (initSched 1 1) ⟨0, [⟨1, Phase.waitingAcquire, 1, 0⟩]⟩ ∧
    (∀ c', ¬ Step allClientErrScripts ⟨0, [⟨1, Phase.waitingAcquire, 1, 0⟩]⟩ c') ∧
    ([(⟨1, Phase.waitingAcquire, 1, 0⟩ : WorkerTask)].all
        fun t => t.phase == Phase.finished) = false ∧
    Reach allClientErrScripts (initSched 2 1) ⟨0, [⟨2, Phase.probing, 1, 0⟩]⟩ ∧
    heldSum ⟨0, [⟨2, Phase.probing, 1, 0⟩]⟩ = 2 := by
  refine ⟨?_, ?_, by decide, ?_, by decide⟩
  · have s1 : Step allClientErrScripts ⟨1, [⟨0, Phase.waitingAcquire, 0, 1⟩]⟩
        ⟨0, [⟨1, Phase.probing, 0, 1⟩]⟩ :=
      Step.acquire 0 [] ⟨0, Phase.waitingAcquire, 0, 1⟩ [] rfl
    have s2 : Step allClientErrScripts ⟨0, [⟨1, Phase.probing, 0, 1⟩]⟩
        ⟨0, [⟨1, Phase.backoff, 0, 1⟩]⟩ :=
      Step.probeRetry 0 [] ⟨1, Phase.probing, 0, 1⟩ [] "Connection reset by peer" 0 rfl rfl rfl
    have s3 : Step allClientErrScripts ⟨0, [⟨1, Phase.backoff, 0, 1⟩]⟩
        ⟨0, [⟨1, Phase.waitingAcquire, 1, 0⟩]⟩ :=
      Step.backoffDone 0 [] ⟨1, Phase.backoff, 0, 1⟩ [] rfl
    exact Reach.tail (Reach.tail (Reach.tail Reach.refl s1) s2) s3
  · intro c' h
    obtain ⟨l₁, t, l₂, hteq, hc⟩ := step_src_decomp h
    obtain ⟨-, rfl, -⟩ := singleton_decomp hteq.symm
    rcases hc with ⟨-, a, ha⟩ | hph | hph | hph
    · exact absurd ha (by simp)
    · simp at hph
    · simp at hph
    · simp at hph
  · have s1 : Step allClientErrScripts ⟨2, [⟨0, Phase.waitingAcquire, 0, 1⟩]⟩
        ⟨1, [⟨1, Phase.probing, 0, 1⟩]⟩ :=
      Step.acquire 1 [] ⟨0, Phase.waitingAcquire, 0, 1⟩ [] rfl
    have s2 : Step allClientErrScripts ⟨1, [⟨1, Phase.probing, 0, 1⟩]⟩
        ⟨1, [⟨1, Phase.backoff, 0, 1⟩]⟩ :=
      Step.probeRetry 1 [] ⟨1, Phase.probing, 0, 1⟩ [] "Connection reset by peer" 0 rfl rfl rfl
    have s3 : Step allClientErrScripts ⟨1, [⟨1, Phase.backoff, 0, 1⟩]⟩
        ⟨1, [⟨1, Phase.waitingAcquire, 1, 0⟩]⟩ :=
      Step.backoffDone 1 [] ⟨1, Phase.backoff, 0, 1⟩ [] rfl
    have s4 : Step allClientErrScripts ⟨1, [⟨1, Phase.waitingAcquire, 1, 0⟩]⟩
        ⟨0, [⟨2, Phase.probing, 1, 0⟩]⟩ :=
      Step.acquire 0 [] ⟨1, Phase.waitingAcquire, 1, 0⟩ [] rfl
    exact Reach.tail (Reach.tail (Reach.tail (Reach.tail Reach.refl s1) s2) s3) s4

end ConcurCrawler
